import Mathlib

/-!
Verification of the httputil route resolver and basic-auth header parser.

Strings are modelled as lists of characters (runes).  The Go standard
library helpers used by the code (`strings.SplitN`, `strings.Join`,
`strings.Count`, `strings.Replace`, `strings.HasSuffix`, `path.Match`)
are embedded below, followed by the repository's own functions
(`subtreeMatch`, `ResolvePath`, `Resolve`, `parseBasicString`).
-/

namespace Httputil

abbrev Str := List Char

def str (s : String) : Str := s.toList

instance {ε α : Type} [DecidableEq ε] [DecidableEq α] : DecidableEq (Except ε α) := fun x y =>
  match x, y with
  | .ok a, .ok b =>
    if h : a = b then isTrue (by rw [h]) else isFalse (fun hh => h (by injection hh))
  | .ok _, .error _ => isFalse (fun hh => Except.noConfusion hh)
  | .error _, .ok _ => isFalse (fun hh => Except.noConfusion hh)
  | .error e, .error f =>
    if h : e = f then isTrue (by rw [h]) else isFalse (fun hh => h (by injection hh))

/-- The literal pattern `**`. -/
def starStar : Str := ['*', '*']

/-- strings.HasSuffix. -/
def hasSuffix (s suf : Str) : Bool := suf.isSuffixOf s

/-- Locate the first occurrence of the separator character: returns the
part before it and the part after it, or none if absent. -/
def splitFirst (c : Char) : Str → Option (Str × Str)
  | [] => none
  | x :: xs =>
    if x = c then some ([], xs)
    else
      match splitFirst c xs with
      | none => none
      | some (a, b) => some (x :: a, b)

/-- strings.SplitN with a single-character separator and limit n ≥ 0:
at most n pieces, the last piece absorbing the remaining separators.
n = 0 yields the empty list, as in Go. -/
def splitN (c : Char) : Nat → Str → List Str
  | 0, _ => []
  | 1, s => [s]
  | n + 2, s =>
    match splitFirst c s with
    | none => [s]
    | some (a, b) => a :: splitN c (n + 1) b

/-- strings.Split (no limit): n = Count(s, sep) + 1 pieces. -/
def splitAll (c : Char) (s : Str) : List Str := splitN c (s.count c + 1) s

/-- strings.Join with a single-character separator. -/
def joinChar (c : Char) : List Str → Str
  | [] => []
  | [x] => x
  | x :: xs => x ++ c :: joinChar c xs

/-- The value of the reslicing `parts[0:k]` performed by subtreeMatch on
the result of strings.SplitN(pathName, "/", k+1), on the inputs where
that reslice is legal: the length is extended to k, exposing the
zero-valued (empty) strings the backing array holds beyond the pieces
actually produced.  Legality depends on the capacity of the returned
slice — min(k+1, len(pathName)+1) with the current strings.genSplit —
and is modelled by resliceCapped and subtreeMatchChecked below;
subtreeMatch and resolvePath use slicePad directly and thus describe the
program exactly on the inputs where it returns rather than panics. -/
def slicePad (k : Nat) (l : List Str) : List Str :=
  if k ≤ l.length then l.take k else l ++ List.replicate (k - l.length) []

/-- strings.Replace(pattern, "/**", "", -1): remove every (leftmost-first,
non-overlapping) occurrence of the three-character substring `/**`. -/
def stripSlashStarStar : Str → Str
  | [] => []
  | '/' :: '*' :: '*' :: rest => stripSlashStarStar rest
  | c :: rest => c :: stripSlashStarStar rest

/-! ## path.Match (Go standard library glob engine) -/

/-- path.ErrBadPattern. -/
inductive GlobErr
  | badPattern
deriving DecidableEq, Repr

/-- The optional leading `^` of a character class (`negated` in matchChunk). -/
def stripCaret : Str → Bool × Str
  | '^' :: rest => (true, rest)
  | p => (false, p)

/-- The range-parsing loop of matchChunk, with getEsc inlined: repeatedly
read a possibly-escaped low bound, an optional `-` and high bound, record
whether the probed character `ch` falls in any range, and stop at a `]`
that closes at least one range.  Returns the accumulated match flag and
the chunk remaining after the closing bracket. -/
def parseRanges (ch : Char) (matched : Bool) (nrange : Nat) : Str → Except GlobErr (Bool × Str)
  | [] => .error .badPattern
  | ']' :: rest => if 0 < nrange then .ok (matched, rest) else .error .badPattern
  | '-' :: _ => .error .badPattern
  | '\\' :: [] => .error .badPattern
  | '\\' :: _ :: [] => .error .badPattern
  | '\\' :: _ :: '-' :: [] => .error .badPattern
  | '\\' :: _ :: '-' :: '-' :: _ => .error .badPattern
  | '\\' :: _ :: '-' :: ']' :: _ => .error .badPattern
  | '\\' :: _ :: '-' :: '\\' :: [] => .error .badPattern
  | '\\' :: lo :: '-' :: '\\' :: hi :: rest4 =>
    if rest4.isEmpty then .error .badPattern
    else parseRanges ch (matched || decide (lo ≤ ch ∧ ch ≤ hi)) (nrange + 1) rest4
  | '\\' :: lo :: '-' :: hi :: rest4 =>
    if rest4.isEmpty then .error .badPattern
    else parseRanges ch (matched || decide (lo ≤ ch ∧ ch ≤ hi)) (nrange + 1) rest4
  | '\\' :: lo :: rest1 =>
    parseRanges ch (matched || decide (lo ≤ ch ∧ ch ≤ lo)) (nrange + 1) rest1
  | _ :: [] => .error .badPattern
  | _ :: '-' :: [] => .error .badPattern
  | _ :: '-' :: '-' :: _ => .error .badPattern
  | _ :: '-' :: ']' :: _ => .error .badPattern
  | _ :: '-' :: '\\' :: [] => .error .badPattern
  | lo :: '-' :: '\\' :: hi :: rest4 =>
    if rest4.isEmpty then .error .badPattern
    else parseRanges ch (matched || decide (lo ≤ ch ∧ ch ≤ hi)) (nrange + 1) rest4
  | lo :: '-' :: hi :: rest4 =>
    if rest4.isEmpty then .error .badPattern
    else parseRanges ch (matched || decide (lo ≤ ch ∧ ch ≤ hi)) (nrange + 1) rest4
  | lo :: rest1 =>
    parseRanges ch (matched || decide (lo ≤ ch ∧ ch ≤ lo)) (nrange + 1) rest1

/-- matchChunk: check whether a chunk matches the beginning of s, carrying
the `failed` flag so that the remainder of the chunk is still checked for
well-formedness after a mismatch.  Result: `some rest` on a match, `none`
on a clean mismatch.  The fuel argument only bounds the recursion; a
chunk of length L needs at most L + 1 steps since every step consumes at
least one chunk character. -/
def matchChunkF : Nat → Str → Str → Bool → Except GlobErr (Option Str)
  | 0, _, _, _ => .ok none
  | fuel + 1, chunk, s, fl =>
    match chunk with
    | [] => if fl then .ok none else .ok (some s)
    | c :: cr =>
      let failed := fl || s.isEmpty
      if c = '[' then
        let r : Char := if failed then Char.ofNat 0 else s.headD (Char.ofNat 0)
        let s1 : Str := if failed then s else s.tail
        let nc := stripCaret cr
        match parseRanges r false 0 nc.2 with
        | .error e => .error e
        | .ok (m, cr2) => matchChunkF fuel cr2 s1 (failed || (m == nc.1))
      else if c = '?' then
        if failed then matchChunkF fuel cr s true
        else matchChunkF fuel cr s.tail (decide (s.headD (Char.ofNat 0) = '/'))
      else if c = '\\' then
        match cr with
        | [] => .error .badPattern
        | d :: cr2 =>
          if failed then matchChunkF fuel cr2 s true
          else matchChunkF fuel cr2 s.tail (decide (d ≠ s.headD (Char.ofNat 0)))
      else
        if failed then matchChunkF fuel cr s true
        else matchChunkF fuel cr s.tail (decide (c ≠ s.headD (Char.ofNat 0)))

def matchChunk (chunk s : Str) (fl : Bool) : Except GlobErr (Option Str) :=
  matchChunkF (chunk.length + 1) chunk s fl

/-! Fuel adequacy: every step of matchChunkF consumes at least one chunk
character, so any fuel exceeding the chunk length computes the same
result; in particular the fuel-exhausted branch of matchChunkF is
unreachable from matchChunk. -/

set_option maxHeartbeats 2000000 in
theorem parseRanges_length_lt (ch : Char) (m : Bool) (n : Nat) (chunk : Str) :
    ∀ b rest, parseRanges ch m n chunk = .ok (b, rest) → rest.length < chunk.length := by
  induction m, n, chunk using parseRanges.induct ch
  all_goals intro b rest h
  all_goals simp only [parseRanges] at h
  all_goals try (split at h)
  all_goals try (exact Except.noConfusion h)
  all_goals try (injection h with h1; injection h1 with h2 h3; subst h3; simp only [List.length_cons]; omega)
  all_goals try (first
    | (rename_i ih hne; have hlt := ih b rest h; simp only [List.length_cons]; omega)
    | (rename_i ih; have hlt := ih b rest h; simp only [List.length_cons]; omega))


theorem stripCaret_length (p : Str) : (stripCaret p).2.length ≤ p.length := by
  unfold stripCaret
  split <;> simp

theorem matchChunkF_fuel_sufficient :
    ∀ (n : Nat) (chunk : Str), chunk.length ≤ n →
      ∀ (f : Nat) (s : Str) (fl : Bool), chunk.length < f →
        matchChunkF f chunk s fl = matchChunk chunk s fl := by
  intro n
  induction n with
  | zero =>
    intro chunk hn f s fl hf
    have : chunk = [] := List.length_eq_zero.mp (Nat.le_zero.mp hn)
    subst this
    obtain ⟨g, rfl⟩ : ∃ g, f = g + 1 := ⟨f - 1, by omega⟩
    rfl
  | succ n ih =>
    intro chunk hn f s fl hf
    obtain ⟨g, rfl⟩ : ∃ g, f = g + 1 := ⟨f - 1, by omega⟩
    cases chunk with
    | nil => rfl
    | cons c cr =>
      rw [matchChunk]
      have hlen : (c :: cr).length + 1 = cr.length + 1 + 1 := by simp
      rw [hlen]
      have hg2ge : cr.length < cr.length + 1 := Nat.lt_succ_self _
      generalize hg2 : cr.length + 1 = g2 at hg2ge
      have hcr_n : cr.length ≤ n := by simp at hn; omega
      have hcr_g : cr.length < g + 1 := by simp at hf; omega
      simp only [matchChunkF]
      by_cases hc1 : c = '['
      · simp only [hc1, if_pos]
        cases hpr : parseRanges (if (fl || List.isEmpty s) = true then Char.ofNat 0
            else List.headD s (Char.ofNat 0)) false 0 (stripCaret cr).2 with
        | error e => simp [hpr]
        | ok mc =>
          obtain ⟨m, cr2⟩ := mc
          simp only [hpr]
          have h2 : cr2.length < (stripCaret cr).2.length :=
            parseRanges_length_lt _ _ _ _ m cr2 hpr
          have h3 : (stripCaret cr).2.length ≤ cr.length := stripCaret_length cr
          rw [ih cr2 (by omega) g _ _ (by omega), ih cr2 (by omega) g2 _ _ (by omega)]
      · simp only [if_neg hc1]
        by_cases hc2 : c = '?'
        · simp only [hc2, if_pos]
          by_cases hfl : (fl || List.isEmpty s) = true
          · simp only [hfl, if_pos]
            rw [ih cr hcr_n g _ _ (by omega), ih cr hcr_n g2 _ _ (by omega)]
          · simp only [if_neg hfl]
            rw [ih cr hcr_n g _ _ (by omega), ih cr hcr_n g2 _ _ (by omega)]
        · simp only [if_neg hc2]
          by_cases hc3 : c = '\\'
          · simp only [hc3, if_pos]
            cases cr with
            | nil => rfl
            | cons d cr2 =>
              have hd : cr2.length ≤ n := by simp at hcr_n ⊢; omega
              by_cases hfl : (fl || List.isEmpty s) = true
              · simp only [hfl, if_pos]
                rw [ih cr2 hd g _ _ (by simp at hcr_g; omega),
                  ih cr2 hd g2 _ _ (by simp at hg2ge; omega)]
              · simp only [if_neg hfl]
                rw [ih cr2 hd g _ _ (by simp at hcr_g; omega),
                  ih cr2 hd g2 _ _ (by simp at hg2ge; omega)]
          · simp only [if_neg hc3]
            by_cases hfl : (fl || List.isEmpty s) = true
            · simp only [hfl, if_pos]
              rw [ih cr hcr_n g _ _ (by omega), ih cr hcr_n g2 _ _ (by omega)]
            · simp only [if_neg hfl]
              rw [ih cr hcr_n g _ _ (by omega), ih cr hcr_n g2 _ _ (by omega)]


theorem matchChunkF_eq_matchChunk (f : Nat) (chunk s : Str) (fl : Bool)
    (h : chunk.length < f) : matchChunkF f chunk s fl = matchChunk chunk s fl :=
  matchChunkF_fuel_sufficient chunk.length chunk (Nat.le_refl _) f s fl h

/-- The leading-star consumption of scanChunk. -/
def dropStars : Str → Str
  | '*' :: rest => dropStars rest
  | p => p

/-- Iterated scanChunk: split a pattern into its chunks, each flagged with
whether it is preceded by a star.  The accumulator holds the current
chunk reversed; `inrange` tracks an open bracket; a `star` flag with an
empty accumulator marks the leading-star position of a fresh chunk, where
further stars are absorbed. -/
def chunker (inrange : Bool) (acc : Str) (star : Bool) : Str → List (Bool × Str)
  | [] => [(star, acc.reverse)]
  | c :: rest =>
    if c = '*' && !inrange then
      if star && acc.isEmpty then chunker false [] true rest
      else (star, acc.reverse) :: chunker false [] true rest
    else if c = '\\' then
      match rest with
      | [] => [(star, (c :: acc).reverse)]
      | d :: rest2 => chunker inrange (d :: c :: acc) star rest2
    else if c = '[' then chunker true (c :: acc) star rest
    else if c = ']' then chunker false (c :: acc) star rest
    else chunker inrange (c :: acc) star rest

def scanChunks : Str → List (Bool × Str)
  | [] => []
  | '*' :: rest => chunker false [] true (dropStars rest)
  | p => chunker false [] false p

/-- The inner star loop of Match: try matching the chunk after skipping
one more leading character of name, never skipping past a `/`.
`restEmpty` records whether this is the final chunk; success returns the
remaining name. -/
def starLoop (chunk : Str) (restEmpty : Bool) : Str → Except GlobErr (Option Str)
  | [] => .ok none
  | c :: s =>
    if c = '/' then .ok none
    else
      match matchChunk chunk s false with
      | .error e => .error e
      | .ok (some t) =>
        if restEmpty && !t.isEmpty then starLoop chunk restEmpty s else .ok (some t)
      | .ok none => starLoop chunk restEmpty s

/-- The final loop of Match: before returning a no-match, check that the
remaining chunks are syntactically valid. -/
def checkChunks : List (Bool × Str) → Except GlobErr Bool
  | [] => .ok false
  | (_, chunk) :: rest =>
    match matchChunk chunk [] false with
    | .error e => .error e
    | .ok _ => checkChunks rest

/-- The main loop of path.Match over the pre-scanned chunk list. -/
def goMatchChunks : List (Bool × Str) → Str → Except GlobErr Bool
  | [], name => .ok name.isEmpty
  | (star, chunk) :: rest, name =>
    if star && chunk.isEmpty then .ok (!(name.contains '/'))
    else
      match matchChunk chunk name false with
      | .error e => .error e
      | .ok r =>
        let fallback : Except GlobErr Bool :=
          if star then
            match starLoop chunk rest.isEmpty name with
            | .error e => .error e
            | .ok (some t) => goMatchChunks rest t
            | .ok none => checkChunks rest
          else checkChunks rest
        match r with
        | some t => if t.isEmpty || !rest.isEmpty then goMatchChunks rest t else fallback
        | none => fallback

/-- path.Match(pattern, name). -/
def pathMatch (pattern name : Str) : Except GlobErr Bool :=
  goMatchChunks (scanChunks pattern) name

/-! ## The resolver (httputil package) -/

/-- Error of subtreeMatch: the fmt.Errorf("illegal ** pattern: ...")
value, or a path.ErrBadPattern propagated from path.Match. -/
inductive SubtreeErr
  | illegalPattern
  | badPattern
deriving DecidableEq, Repr

/-- Error of ResolvePath: ErrRouteNotFound, or a path.ErrBadPattern
propagated from path.Match. -/
inductive ResolveErr
  | routeNotFound
  | badPattern
deriving DecidableEq, Repr

/-- Resolver.subtreeMatch. -/
def subtreeMatch (pathName pattern : Str) : Except SubtreeErr Bool :=
  if pattern = starStar then .ok true
  else
    let countSlash := pattern.count '/'
    if countSlash = 0 then .error .illegalPattern
    else
      let parts := splitN '/' (countSlash + 1) pathName
      let pref := joinChar '/' (slicePad countSlash parts)
      let subpattern := stripSlashStarStar pattern
      match pathMatch subpattern pref with
      | .ok true => .ok true
      | .ok false => .ok false
      | .error _ => .error .badPattern

/-- Resolver.ResolvePath, recursing over the registered pattern list.
Mirrors the Go loop: a `**`-suffixed pattern is first tried as a subtree
match whose error, if any, is discarded (`if ok, _ := ...`), and every
pattern then falls through to the plain path.Match step, whose error
aborts resolution. -/
def resolvePath : List Str → Str → Str × Option ResolveErr
  | [], pathName => (pathName, some .routeNotFound)
  | pattern :: rest, pathName =>
    if hasSuffix pattern starStar
        && (match subtreeMatch pathName pattern with
            | .ok b => b
            | .error _ => false) then
      (pattern, none)
    else
      match pathMatch pattern pathName with
      | .ok true => (pattern, none)
      | .ok false => resolvePath rest pathName
      | .error _ => (pathName, some .badPattern)

/-- The reslice `parts[0:k]` of a slice of the given capacity: legal
when k is within the capacity (the length is extended to k, exposing
zero-valued empty strings), a run-time panic (`none`) otherwise. -/
def resliceCapped (k cap : Nat) (l : List Str) : Option (List Str) :=
  if k ≤ cap then some (slicePad k l) else none

/-- subtreeMatch under the capacity-clamped strings.SplitN of current Go
(genSplit caps the allocation at len(s)+1, so the returned slice's
capacity is min(countSlash+1, len(pathName)+1)): the parts[0:countSlash]
reslice panics (`none`) when countSlash exceeds that capacity, and
otherwise the result is exactly that of subtreeMatch
(subtreeMatchChecked_agrees below). -/
def subtreeMatchChecked (pathName pattern : Str) : Option (Except SubtreeErr Bool) :=
  if pattern = starStar then some (.ok true)
  else
    let countSlash := pattern.count '/'
    if countSlash = 0 then some (.error .illegalPattern)
    else
      let parts := splitN '/' (countSlash + 1) pathName
      match resliceCapped countSlash (min (countSlash + 1) (pathName.length + 1)) parts with
      | none => none
      | some sliced =>
        let pref := joinChar '/' sliced
        let subpattern := stripSlashStarStar pattern
        match pathMatch subpattern pref with
        | .ok true => some (.ok true)
        | .ok false => some (.ok false)
        | .error _ => some (.error .badPattern)

/-- Resolver.ResolvePath built on the checked subtree step: a panic
inside subtreeMatch propagates (`none`); wherever the call returns, the
result is exactly that of resolvePath (resolvePathChecked_agrees
below). -/
def resolvePathChecked : List Str → Str → Option (Str × Option ResolveErr)
  | [], pathName => some (pathName, some .routeNotFound)
  | pattern :: rest, pathName =>
    if hasSuffix pattern starStar then
      match subtreeMatchChecked pathName pattern with
      | none => none
      | some st =>
        if (match st with | .ok b => b | .error _ => false) then some (pattern, none)
        else
          match pathMatch pattern pathName with
          | .ok true => some (pattern, none)
          | .ok false => resolvePathChecked rest pathName
          | .error _ => some (pathName, some .badPattern)
    else
      match pathMatch pattern pathName with
      | .ok true => some (pattern, none)
      | .ok false => resolvePathChecked rest pathName
      | .error _ => some (pathName, some .badPattern)

structure Resolver where
  paths : List Str

def Resolver.ResolvePath (r : Resolver) (pathName : Str) : Str × Option ResolveErr :=
  resolvePath r.paths pathName

structure URL where
  Path : Str

structure Request where
  Method : Str
  URL : Httputil.URL

/-- Resolver.Resolve: builds the "VERB PATH" descriptor and delegates. -/
def Resolver.Resolve (r : Resolver) (req : Request) : Str × Option ResolveErr :=
  r.ResolvePath (req.Method ++ [' '] ++ req.URL.Path)

/-! ## parseBasicString (auth package) -/

/-- Outcome of the credential-extraction tail of parseBasicString:
a clean error, a user/password pair, or an out-of-range slice index
(a run-time panic in the original). -/
inductive ParseBasicOutcome
  | ok (user pass : Str)
  | err
  | panicked
deriving DecidableEq, Repr

/-- Lines 103–107 of auth_basic.go: split the decoded credentials on ":"
with limit 2, take the first part as the user, and, under the guard
len(parts) > 0, read the password from parts[1] — an access that is out
of range whenever the split produced a single part. -/
def splitCredentials (full : Str) : ParseBasicOutcome :=
  let parts := splitN ':' 2 full
  let user := parts.getD 0 []
  if 0 < parts.length then
    match parts.get? 1 with
    | some pass => .ok user pass
    | none => .panicked
  else .ok user []

/-- Result of base64.StdEncoding.DecodeString, supplied as a parameter. -/
inductive B64Result
  | ok (s : Str)
  | err
deriving DecidableEq, Repr

/-- parseBasicString: split the header on spaces, require at least two
parts, base64-decode the second, then extract user and password. -/
def parseBasicString (decode : Str → B64Result) (header : Str) : ParseBasicOutcome :=
  let parts := splitAll ' ' header
  if parts.length < 2 then .err
  else
    match decode (parts.getD 1 []) with
    | .err => .err
    | .ok full => splitCredentials full

/-! ## Helper lemmas -/

theorem splitFirst_eq_none (c : Char) (s : Str) :
    splitFirst c s = none ↔ s.count c = 0 := by
  induction s with
  | nil => simp [splitFirst]
  | cons x xs ih =>
    rw [splitFirst]
    by_cases hx : x = c
    · subst hx
      simp [List.count_cons]
    · rw [if_neg hx]
      cases h : splitFirst c xs with
      | none =>
        simp [List.count_cons, hx, ih.mp h]
      | some ab =>
        have hne : xs.count c ≠ 0 := by
          intro hc
          rw [ih.mpr hc] at h
          exact Option.noConfusion h
        simp [List.count_cons, hx, hne]

theorem splitFirst_eq_some (c : Char) (s a b : Str) :
    splitFirst c s = some (a, b) → s = a ++ c :: b ∧ a.count c = 0 := by
  induction s generalizing a b with
  | nil => simp [splitFirst]
  | cons x xs ih =>
    rw [splitFirst]
    by_cases hx : x = c
    · subst hx
      rw [if_pos rfl]
      intro h
      obtain ⟨rfl, rfl⟩ : ([] : Str) = a ∧ xs = b := by simpa using h
      simp
    · rw [if_neg hx]
      cases h : splitFirst c xs with
      | none => simp
      | some ab =>
        obtain ⟨a', b'⟩ := ab
        intro heq
        obtain ⟨rfl, rfl⟩ : x :: a' = a ∧ b' = b := by simpa using heq
        obtain ⟨h1, h2⟩ := ih a' b' h
        subst h1
        simp [List.count_cons, hx, h2]

theorem splitN_succ_length (c : Char) (m : Nat) (s : Str) :
    (splitN c (m + 1) s).length = min (m + 1) (s.count c + 1) := by
  induction m generalizing s with
  | zero => simp [splitN]
  | succ m ih =>
    rw [splitN]
    cases h : splitFirst c s with
    | none =>
      have h0 : s.count c = 0 := (splitFirst_eq_none c s).mp h
      simp [h0]
    | some ab =>
      obtain ⟨a, b⟩ := ab
      obtain ⟨rfl, ha⟩ := splitFirst_eq_some c s a b h
      have hs : (a ++ c :: b).count c = b.count c + 1 := by
        simp [List.count_append, List.count_cons, ha]
      simp only [List.length_cons, ih, hs]
      omega

theorem splitN_length (c : Char) (n : Nat) (s : Str) (hn : 1 ≤ n) :
    (splitN c n s).length = min n (s.count c + 1) := by
  obtain ⟨m, rfl⟩ : ∃ m, n = m + 1 := ⟨n - 1, by omega⟩
  exact splitN_succ_length c m s

theorem slicePad_length (k : Nat) (l : List Str) (h : l.length ≤ k) :
    (slicePad k l).length = k := by
  rw [slicePad]
  by_cases hk : k ≤ l.length
  · rw [if_pos hk]
    simp
    omega
  · rw [if_neg hk]
    simp
    omega

/-- Case analysis for a single-pattern resolution: it either succeeds with
that pattern, aborts with a pattern error, or cleanly reports not-found. -/
theorem resolve_single_cases (p D : Str) :
    resolvePath [p] D = (p, none) ∨ resolvePath [p] D = (D, some .badPattern) ∨
      resolvePath [p] D = (D, some .routeNotFound) := by
  by_cases hc : (hasSuffix p starStar
      && (match subtreeMatch D p with | .ok b => b | .error _ => false)) = true
  · left
    simp [resolvePath, hc]
  · cases h : pathMatch p D with
    | ok b =>
      cases b
      · right; right; simp [resolvePath, hc, h]
      · left; simp [resolvePath, hc, h]
    | error e => right; left; simp [resolvePath, hc, h]

/-- The evaluation of one pattern in the loop depends only on that pattern
and the descriptor: a clean not-found moves on to the remaining patterns,
anything else (success or pattern error) is the final answer. -/
theorem resolve_cons (p : Str) (rest : List Str) (D : Str) :
    resolvePath (p :: rest) D =
      if (resolvePath [p] D).2 = some .routeNotFound then resolvePath rest D
      else resolvePath [p] D := by
  by_cases hc : (hasSuffix p starStar
      && (match subtreeMatch D p with | .ok b => b | .error _ => false)) = true
  · simp [resolvePath, hc]
  · cases h : pathMatch p D with
    | ok b => cases b <;> simp [resolvePath, hc, h]
    | error e => simp [resolvePath, hc, h]

/-- Patterns that cleanly fail to match are skipped without affecting the
rest of the resolution. -/
theorem resolve_skip (ps1 ps2 : List Str) (D : Str)
    (h : ∀ q ∈ ps1, resolvePath [q] D = (D, some .routeNotFound)) :
    resolvePath (ps1 ++ ps2) D = resolvePath ps2 D := by
  induction ps1 with
  | nil => rfl
  | cons p ps ih =>
    have hp := h p (by simp)
    rw [List.cons_append, resolve_cons, hp]
    simp only [if_pos rfl]
    exact ih (fun q hq => h q (by simp [hq]))

/-- Resolution reports not-found exactly when every registered pattern,
taken on its own, cleanly reports not-found. -/
theorem resolve_notFound_iff (ps : List Str) (D : Str) :
    resolvePath ps D = (D, some .routeNotFound) ↔
      ∀ q ∈ ps, resolvePath [q] D = (D, some .routeNotFound) := by
  induction ps with
  | nil => simp [resolvePath]
  | cons p rest ih =>
    rw [resolve_cons]
    rcases resolve_single_cases p D with h | h | h <;> rw [h] <;> simp [h, ih]

/-- The checked model refines the plain one: wherever
subtreeMatchChecked returns, its value is that of subtreeMatch. -/
theorem subtreeMatchChecked_agrees (D p : Str) (r : Except SubtreeErr Bool)
    (h : subtreeMatchChecked D p = some r) : subtreeMatch D p = r := by
  by_cases h1 : p = starStar
  · simp [subtreeMatchChecked, h1] at h
    simp [subtreeMatch, h1, ← h]
  · by_cases h2 : p.count '/' = 0
    · simp [subtreeMatchChecked, h1, h2] at h
      simp [subtreeMatch, h1, h2, ← h]
    · by_cases h3 : p.count '/' ≤ min (p.count '/' + 1) (D.length + 1)
      · cases hm : pathMatch (stripSlashStarStar p)
            (joinChar '/' (slicePad (p.count '/') (splitN '/' (p.count '/' + 1) D))) with
        | ok b =>
          cases b
          · simp [subtreeMatchChecked, resliceCapped, h1, h2, h3, hm] at h
            simp [subtreeMatch, h1, h2, hm, ← h]
          · simp [subtreeMatchChecked, resliceCapped, h1, h2, h3, hm] at h
            simp [subtreeMatch, h1, h2, hm, ← h]
        | error e =>
          simp [subtreeMatchChecked, resliceCapped, h1, h2, h3, hm] at h
          simp [subtreeMatch, h1, h2, hm, ← h]
      · simp [subtreeMatchChecked, resliceCapped, h1, h2, h3] at h

/-- Wherever resolvePathChecked returns, its value is that of
resolvePath. -/
theorem resolvePathChecked_agrees : ∀ (ps : List Str) (D : Str) (r : Str × Option ResolveErr),
    resolvePathChecked ps D = some r → resolvePath ps D = r := by
  intro ps
  induction ps with
  | nil =>
    intro D r h
    simp [resolvePathChecked] at h
    simp [resolvePath, ← h]
  | cons p rest ih =>
    intro D r h
    by_cases hs : hasSuffix p starStar = true
    · cases hsc : subtreeMatchChecked D p with
      | none => simp [resolvePathChecked, hs, hsc] at h
      | some st =>
        have hag : subtreeMatch D p = st := subtreeMatchChecked_agrees D p st hsc
        cases st with
        | ok b =>
          cases b with
          | true =>
            simp [resolvePathChecked, hs, hsc] at h
            simp [resolvePath, hs, hag, ← h]
          | false =>
            cases hm : pathMatch p D with
            | ok c =>
              cases c with
              | true =>
                simp [resolvePathChecked, hs, hsc, hm] at h
                simp [resolvePath, hs, hag, hm, ← h]
              | false =>
                simp [resolvePathChecked, hs, hsc, hm] at h
                rw [resolvePath]
                simp [hs, hag, hm]
                exact ih D r h
            | error e =>
              simp [resolvePathChecked, hs, hsc, hm] at h
              simp [resolvePath, hs, hag, hm, ← h]
        | error e0 =>
          cases hm : pathMatch p D with
          | ok c =>
            cases c with
            | true =>
              simp [resolvePathChecked, hs, hsc, hm] at h
              simp [resolvePath, hs, hag, hm, ← h]
            | false =>
              simp [resolvePathChecked, hs, hsc, hm] at h
              rw [resolvePath]
              simp [hs, hag, hm]
              exact ih D r h
          | error e =>
            simp [resolvePathChecked, hs, hsc, hm] at h
            simp [resolvePath, hs, hag, hm, ← h]
    · cases hm : pathMatch p D with
      | ok b =>
        cases b
        · simp [resolvePathChecked, hs, hm] at h
          rw [resolvePath]
          simp [hs, hm]
          exact ih D r h
        · simp [resolvePathChecked, hs, hm] at h
          simp [resolvePath, hs, hm, ← h]
      | error e =>
        simp [resolvePathChecked, hs, hm] at h
        simp [resolvePath, hs, hm, ← h]

/-! ## Claims -/

/-- The pattern set of the resolver unit test. -/
def mobyPatterns : List Str :=
  [str "* /loomings", str "THE /carpet/bag", str "* /carpet/bag",
   str "THE /spouter/inn", str "THE /counterpane/**", str "* /breakfast/*",
   str "* /nantucket/*/*/*", str "* /nantucket/*/*", str "* /enter/**",
   str "**"]

/-- C2: for the test pattern set, ResolvePath returns, with no error, the
expected pattern for each of the nine descriptors of the unit test, and
Resolve on a structured request with method GET and path /nantucket/1/2/3
returns "* /nantucket/*/*/*". -/
theorem c2_test_table :
    resolvePath mobyPatterns (str "GET /loomings") = (str "* /loomings", none) ∧
    resolvePath mobyPatterns (str "THE /carpet/bag") = (str "THE /carpet/bag", none) ∧
    resolvePath mobyPatterns (str "POST /carpet/bag") = (str "* /carpet/bag", none) ∧
    resolvePath mobyPatterns (str "POST /breakfast/123") = (str "* /breakfast/*", none) ∧
    resolvePath mobyPatterns (str "HEAD /nantucket/1/2/3") = (str "* /nantucket/*/*/*", none) ∧
    resolvePath mobyPatterns (str "PUT /nantucket/1/2") = (str "* /nantucket/*/*", none) ∧
    resolvePath mobyPatterns (str "THE /counterpane/1/2/3/4") = (str "THE /counterpane/**", none) ∧
    resolvePath mobyPatterns (str "THIS /SHOULD/match/ANYTHING") = (str "**", none) ∧
    resolvePath mobyPatterns (str "GET /enter/ahab/to/him/stubb/the/pipe") = (str "* /enter/**", none) ∧
    Resolver.Resolve ⟨mobyPatterns⟩ ⟨str "GET", ⟨str "/nantucket/1/2/3"⟩⟩ =
      (str "* /nantucket/*/*/*", none) := by
  decide

/-- C7: Resolve on a structured request with method V and URL path P
returns exactly the same result as ResolvePath on the descriptor formed
by joining V and P with a single space. -/
theorem c7_resolve_delegates (paths : List Str) (V P : Str) :
    Resolver.Resolve ⟨paths⟩ ⟨V, ⟨P⟩⟩ = Resolver.ResolvePath ⟨paths⟩ (V ++ [' '] ++ P) := rfl

/-- C10: whenever ResolvePath does not succeed, the string component of
its result is the input descriptor itself; a registered pattern is
returned only on success. -/
theorem c10_failure_returns_descriptor (ps : List Str) (D : Str) :
    ((resolvePath ps D).2 ≠ none → (resolvePath ps D).1 = D) ∧
    ((resolvePath ps D).2 = none → (resolvePath ps D).1 ∈ ps) := by
  induction ps with
  | nil => simp [resolvePath]
  | cons p rest ih =>
    rw [resolve_cons]
    rcases resolve_single_cases p D with h | h | h <;> rw [h] <;> simp [h]
    exact ⟨ih.1, fun hnone => Or.inr (ih.2 hnone)⟩

/-- C10 witness: for a set whose single pattern does not match, the
returned string is the descriptor. -/
theorem c10_witness : (resolvePath [str "GET /a"] (str "GET /b")).1 = str "GET /b" :=
  (c10_failure_returns_descriptor [str "GET /a"] (str "GET /b")).1 (by decide)

/-- C6: the literal `**` pattern matches unconditionally: if every earlier
pattern cleanly fails to match, resolution succeeds with `**`, whatever
the descriptor and whatever follows it in the set. -/
theorem c6_star_star_catch_all (ps1 ps2 : List Str) (D : Str)
    (h : ∀ q ∈ ps1, resolvePath [q] D = (D, some .routeNotFound)) :
    resolvePath (ps1 ++ starStar :: ps2) D = (starStar, none) := by
  rw [resolve_skip ps1 _ D h]
  have hsuf : hasSuffix starStar starStar = true := by decide
  have hsub : subtreeMatch D starStar = .ok true := by
    rw [subtreeMatch, if_pos rfl]
  simp [resolvePath, hsuf, hsub]

/-- C6 witness: `**` resolves a descriptor that no earlier pattern
matches. -/
theorem c6_witness :
    resolvePath ([str "GET /a"] ++ starStar :: []) (str "THIS matches anything") =
      (starStar, none) :=
  c6_star_star_catch_all [str "GET /a"] [] (str "THIS matches anything") (by decide)

/-- C5 counterexample: in the set ["x[", "x?", "x*"] both "x?" and "x*"
match the descriptor "xy", yet ResolvePath returns neither: the earlier
malformed pattern "x[" aborts resolution with a pattern-syntax error, so
the claim's unconditional form is false. -/
theorem c5_counterexample :
    resolvePath [str "x[", str "x?", str "x*"] (str "xy") =
      (str "xy", some .badPattern) ∧
    resolvePath [str "x?"] (str "xy") = (str "x?", none) ∧
    resolvePath [str "x*"] (str "xy") = (str "x*", none) := by
  decide

/-- C5 as amended: if a pattern matches the descriptor and every pattern
registered before it cleanly fails (no match and no pattern-syntax
error), resolution returns that pattern, independently of every pattern
registered after it — in particular the earlier of two matching patterns
wins and later patterns cannot influence the result. -/
theorem c5_first_match_wins (ps1 : List Str) (p : Str) (ps2 : List Str) (D : Str)
    (hmatch : resolvePath [p] D = (p, none))
    (hearlier : ∀ q ∈ ps1, resolvePath [q] D = (D, some .routeNotFound)) :
    resolvePath (ps1 ++ p :: ps2) D = (p, none) := by
  rw [resolve_skip ps1 (p :: ps2) D hearlier, resolve_cons, hmatch]
  simp

/-- C5 witness: "x?" and "x*" both match "xy"; with a clean non-matching
pattern before them, the earlier "x?" is returned. -/
theorem c5_witness :
    resolvePath ([str "* /a"] ++ str "x?" :: [str "x*"]) (str "xy") = (str "x?", none) :=
  c5_first_match_wins [str "* /a"] (str "x?") [str "x*"] (str "xy") (by decide) (by decide)

/-- C8: a pattern-syntax error in the plain-glob step is a hard error —
if every earlier pattern cleanly failed, the result is that error, with
the descriptor as string component, independently of all later patterns;
the not-found outcome arises exactly when every pattern of the set
cleanly fails; and the two error kinds are distinct. -/
theorem c8_hard_error_vs_not_found (D : Str) :
    (∀ (ps1 : List Str) (p : Str) (ps2 : List Str),
        (∀ q ∈ ps1, resolvePath [q] D = (D, some .routeNotFound)) →
        resolvePath [p] D = (D, some .badPattern) →
        resolvePath (ps1 ++ p :: ps2) D = (D, some .badPattern)) ∧
    (∀ ps : List Str,
        resolvePath ps D = (D, some .routeNotFound) ↔
          ∀ q ∈ ps, resolvePath [q] D = (D, some .routeNotFound)) ∧
    ResolveErr.routeNotFound ≠ ResolveErr.badPattern := by
  refine ⟨fun ps1 p ps2 hskip hbad => ?_, fun ps => resolve_notFound_iff ps D, by decide⟩
  rw [resolve_skip ps1 (p :: ps2) D hskip, resolve_cons, hbad]
  simp

/-- C8 witness: a malformed glob aborts resolution before a later
matching pattern is reached. -/
theorem c8_witness :
    resolvePath ([str "ab"] ++ str "x[" :: [str "x*"]) (str "xy") =
      (str "xy", some .badPattern) :=
  (c8_hard_error_vs_not_found (str "xy")).1 [str "ab"] (str "x[") [str "x*"]
    (by decide) (by decide)

/-- C1 counterexample: the malformed pattern "GET **" is reached first,
subtreeMatch reports the illegal-pattern error, yet ResolvePath returns
the later pattern "POST /x" with no error at all — the error is
discarded, the pattern is skipped and evaluation continues. -/
theorem c1_counterexample :
    resolvePath [str "GET **", str "POST /x"] (str "POST /x") = (str "POST /x", none) ∧
    subtreeMatch (str "POST /x") (str "GET **") = .error .illegalPattern := by
  decide

/-- C1 as amended: on reaching a pattern that ends in `**`, is not the
bare `**` and contains no `/`, subtreeMatch does report the
illegal-pattern error, but ResolvePath discards it and falls through to
the plain glob step for that same pattern, then continues with the
remaining patterns; the resolver call does not fail on account of the
malformed subtree pattern. -/
theorem c1_malformed_subtree_skipped (p : Str) (rest : List Str) (D : Str)
    (h1 : hasSuffix p starStar = true) (h2 : p ≠ starStar) (h3 : p.count '/' = 0) :
    subtreeMatch D p = .error .illegalPattern ∧
    resolvePath (p :: rest) D =
      (match pathMatch p D with
       | .ok true => (p, none)
       | .ok false => resolvePath rest D
       | .error _ => (D, some .badPattern)) := by
  have hsub : subtreeMatch D p = .error .illegalPattern := by
    simp [subtreeMatch, h2, h3]
  refine ⟨hsub, ?_⟩
  simp [resolvePath, h1, hsub]

/-- C1 witness: instantiation of the amended claim on the scenario of the
counterexample. -/
theorem c1_witness :
    subtreeMatch (str "POST /x") (str "GET **") = .error .illegalPattern ∧
    resolvePath (str "GET **" :: [str "POST /x"]) (str "POST /x") =
      (match pathMatch (str "GET **") (str "POST /x") with
       | .ok true => (str "GET **", none)
       | .ok false => resolvePath [str "POST /x"] (str "POST /x")
       | .error _ => (str "POST /x", some .badPattern)) :=
  c1_malformed_subtree_skipped (str "GET **") [str "POST /x"] (str "POST /x")
    (by decide) (by decide) (by decide)

/-- C3 counterexample: under the current strings.SplitN, whose result
slice has capacity min(countSlash+1, len(descriptor)+1), the descriptor
"X" — which has fewer than countSlash − 1 slashes, the claim's own
regime — makes the parts[0:countSlash] reslice of subtreeMatch out of
range against the three-slash pattern "* /a/b/**": the call panics
instead of completing, and ResolvePath panics with it. -/
theorem c3_counterexample :
    resolvePathChecked [str "* /a/b/**"] (str "X") = none ∧
    subtreeMatchChecked (str "X") (str "* /a/b/**") = none ∧
    (str "X").count '/' + 1 < (str "* /a/b/**").count '/' := by
  decide

/-- C3 as amended: against a `**`-suffixed pattern with k ≥ 1 slashes
and a descriptor with fewer than k − 1 slashes, the subtree step
completes normally exactly when the descriptor has at least k − 1
characters: the split then yields its slash-count + 1 pieces (under the
k + 1 limit), the parts[0:k] reslice stays within the capacity of the
SplitN result, padding with empty strings, and subtreeMatch returns the
plain glob verdict of the subpattern against the joined prefix; a
shorter descriptor makes the reslice exceed the capacity
min(k+1, len(D)+1) and the call — and ResolvePath with it — panics
rather than returning a result. -/
theorem c3_subtree_split_guarded (p D : Str)
    (h1 : hasSuffix p starStar = true) (h2 : p ≠ starStar)
    (h3 : 0 < p.count '/') (h4 : D.count '/' + 1 < p.count '/') :
    (D.length + 1 < p.count '/' →
        subtreeMatchChecked D p = none ∧
        ∀ rest : List Str, resolvePathChecked (p :: rest) D = none) ∧
    (p.count '/' ≤ D.length + 1 →
        subtreeMatchChecked D p = some (subtreeMatch D p) ∧
        (splitN '/' (p.count '/' + 1) D).length = D.count '/' + 1 ∧
        (slicePad (p.count '/') (splitN '/' (p.count '/' + 1) D)).length = p.count '/' ∧
        subtreeMatch D p =
          (match pathMatch (stripSlashStarStar p)
              (joinChar '/' (slicePad (p.count '/') (splitN '/' (p.count '/' + 1) D))) with
           | .ok b => .ok b
           | .error _ => .error .badPattern)) := by
  have h3' : ¬(p.count '/' = 0) := by omega
  constructor
  · intro hshort
    have hcap : ¬(p.count '/' ≤ min (p.count '/' + 1) (D.length + 1)) := by omega
    have hsub : subtreeMatchChecked D p = none := by
      simp [subtreeMatchChecked, resliceCapped, h2, h3', hcap]
    exact ⟨hsub, fun rest => by simp [resolvePathChecked, h1, hsub]⟩
  · intro hlong
    have hcap : p.count '/' ≤ min (p.count '/' + 1) (D.length + 1) := by omega
    have hlen : (splitN '/' (p.count '/' + 1) D).length = D.count '/' + 1 := by
      rw [splitN_length '/' (p.count '/' + 1) D (by omega)]
      omega
    have hpad : (slicePad (p.count '/') (splitN '/' (p.count '/' + 1) D)).length = p.count '/' := by
      apply slicePad_length
      omega
    have hverdict : subtreeMatch D p =
        (match pathMatch (stripSlashStarStar p)
            (joinChar '/' (slicePad (p.count '/') (splitN '/' (p.count '/' + 1) D))) with
         | .ok b => .ok b
         | .error _ => .error .badPattern) := by
      simp only [subtreeMatch, if_neg h2, h3', if_false]
      cases hm : pathMatch (stripSlashStarStar p)
          (joinChar '/' (slicePad (p.count '/') (splitN '/' (p.count '/' + 1) D))) with
      | ok b => cases b <;> simp
      | error e => simp
    have hagree : subtreeMatchChecked D p = some (subtreeMatch D p) := by
      simp only [subtreeMatchChecked, subtreeMatch, resliceCapped, if_neg h2, h3', if_false,
        if_pos hcap]
      cases hm : pathMatch (stripSlashStarStar p)
          (joinChar '/' (slicePad (p.count '/') (splitN '/' (p.count '/' + 1) D))) with
      | ok b => cases b <;> simp
      | error e => simp
    exact ⟨hagree, hlen, hpad, hverdict⟩

/-- C3 witness: the pattern "* /a/b/**" (three slashes) panics against
the one-character descriptor "X" but completes against "XYZ", agreeing
with subtreeMatch. -/
theorem c3_witness :
    subtreeMatchChecked (str "X") (str "* /a/b/**") = none ∧
    resolvePathChecked [str "* /a/b/**"] (str "X") = none ∧
    subtreeMatchChecked (str "XYZ") (str "* /a/b/**") =
      some (subtreeMatch (str "XYZ") (str "* /a/b/**")) :=
  ⟨((c3_subtree_split_guarded (str "* /a/b/**") (str "X")
      (by decide) (by decide) (by decide) (by decide)).1 (by decide)).1,
   ((c3_subtree_split_guarded (str "* /a/b/**") (str "X")
      (by decide) (by decide) (by decide) (by decide)).1 (by decide)).2 [],
   ((c3_subtree_split_guarded (str "* /a/b/**") (str "XYZ")
      (by decide) (by decide) (by decide) (by decide)).2 (by decide)).1⟩

/-- C4 counterexample: the descriptor "a/b" — the bare prefix with no
trailing separator — is resolved to "a/b/**" even though it neither
begins with "a/b/" nor matches the pattern under plain glob semantics, so
the claim's characterisation is false at this input. -/
theorem c4_counterexample :
    resolvePath [str "a/b/**"] (str "a/b") = (str "a/b/**", none) ∧
    (str "a/b/").isPrefixOf (str "a/b") = false ∧
    pathMatch (str "a/b/**") (str "a/b") = .ok false := by
  decide

/-- C4 as amended: a `/**`-suffixed pattern P ++ "/**" (P non-empty and
containing a `/`) matches a descriptor D exactly when the subpattern
(the pattern with its "/**" occurrences removed) glob-matches the join of
the first k pieces of D split on `/` with limit k + 1 (k the slash count
of the pattern, missing pieces read as empty), or D matches the whole
pattern under plain glob semantics — in particular D = P itself matches,
not only descriptors beginning with P followed by `/`; the
characterisation assumes neither glob evaluation reports a syntax
error. -/
theorem c4_subtree_characterisation (P D : Str) (hne : P ≠ []) (hsl : '/' ∈ P)
    (hsub : pathMatch (stripSlashStarStar (P ++ str "/**"))
        (joinChar '/' (slicePad ((P ++ str "/**").count '/')
          (splitN '/' ((P ++ str "/**").count '/' + 1) D))) ≠ .error .badPattern)
    (hfull : pathMatch (P ++ str "/**") D ≠ .error .badPattern) :
    resolvePath [P ++ str "/**"] D = (P ++ str "/**", none) ↔
      (pathMatch (stripSlashStarStar (P ++ str "/**"))
        (joinChar '/' (slicePad ((P ++ str "/**").count '/')
          (splitN '/' ((P ++ str "/**").count '/' + 1) D))) = .ok true ∨
       pathMatch (P ++ str "/**") D = .ok true) := by
  have hsuf : hasSuffix (P ++ str "/**") starStar = true := by
    rw [hasSuffix, List.isSuffixOf_iff_suffix]
    exact ⟨P ++ ['/'], by simp [str, starStar]⟩
  have hPpos : 0 < P.length := List.length_pos.mpr hne
  have hne_star : P ++ str "/**" ≠ starStar := by
    intro h
    have := congrArg List.length h
    simp [str, starStar] at this
  have hcount : ¬((P ++ str "/**").count '/' = 0) := by
    have : 0 < (P ++ str "/**").count '/' := by
      rw [List.count_append]
      have : 0 < List.count '/' P := List.count_pos_iff.mpr hsl
      omega
    omega
  cases hS : pathMatch (stripSlashStarStar (P ++ str "/**"))
      (joinChar '/' (slicePad ((P ++ str "/**").count '/')
        (splitN '/' ((P ++ str "/**").count '/' + 1) D))) with
  | error e => exact absurd hS hsub
  | ok b =>
    cases b with
    | true =>
      have hsubEq : subtreeMatch D (P ++ str "/**") = .ok true := by
        simp [subtreeMatch, hne_star, hcount, hS, -List.count_append]
      simp [resolvePath, hsuf, hsubEq, hS]
    | false =>
      have hsubEq : subtreeMatch D (P ++ str "/**") = .ok false := by
        simp [subtreeMatch, hne_star, hcount, hS, -List.count_append]
      cases hF : pathMatch (P ++ str "/**") D with
      | error e => exact absurd hF hfull
      | ok c =>
        cases c with
        | true => simp [resolvePath, hsuf, hsubEq, hS, hF]
        | false => simp [resolvePath, hsuf, hsubEq, hS, hF]

/-- C4 witness: the characterisation instantiated on the counterpane
pattern of the unit test. -/
theorem c4_witness :
    resolvePath [str "THE /counterpane" ++ str "/**"] (str "THE /counterpane/1/2") =
        (str "THE /counterpane" ++ str "/**", none) ↔
      (pathMatch (stripSlashStarStar (str "THE /counterpane" ++ str "/**"))
        (joinChar '/' (slicePad ((str "THE /counterpane" ++ str "/**").count '/')
          (splitN '/' ((str "THE /counterpane" ++ str "/**").count '/' + 1)
            (str "THE /counterpane/1/2")))) = .ok true ∨
       pathMatch (str "THE /counterpane" ++ str "/**") (str "THE /counterpane/1/2") = .ok true) :=
  c4_subtree_characterisation (str "THE /counterpane") (str "THE /counterpane/1/2")
    (by decide) (by decide) (by decide) (by decide)

/-- C9: after the base64-decoded credentials are split on ":" with limit
2, the guard len(parts) > 0 holds for every possible decoded string, so
the password extraction from parts[1] is reached unconditionally and the
guard can never produce a clean rejection; a decoded credential with no
":" leaves a single part, making the parts[1] access out of range, and
parseBasicString then ends in that out-of-range access rather than an
error. -/
theorem c9_guard_always_true (full : Str) :
    0 < (splitN ':' 2 full).length ∧
    ((splitN ':' 2 full).length = 1 → splitCredentials full = .panicked) ∧
    splitCredentials full ≠ .err ∧
    (∀ (decode : Str → B64Result) (header : Str),
        ¬(splitAll ' ' header).length < 2 →
        decode ((splitAll ' ' header).getD 1 []) = .ok full →
        full.count ':' = 0 →
        parseBasicString decode header = .panicked) := by
  have hsplit : splitN ':' 2 full =
      (match splitFirst ':' full with
       | none => [full]
       | some (a, b) => [a, b]) := rfl
  have hpanic : full.count ':' = 0 → splitCredentials full = .panicked := by
    intro h0
    have hnone : splitFirst ':' full = none := (splitFirst_eq_none ':' full).mpr h0
    simp [splitCredentials, hsplit, hnone]
  refine ⟨?_, ?_, ?_, ?_⟩
  · rw [hsplit]
    cases h : splitFirst ':' full with
    | none => simp
    | some ab => obtain ⟨a, b⟩ := ab; simp
  · intro hlen
    cases h : splitFirst ':' full with
    | none =>
      exact hpanic ((splitFirst_eq_none ':' full).mp h)
    | some ab =>
      obtain ⟨a, b⟩ := ab
      rw [hsplit, h] at hlen
      simp at hlen
  · cases h : splitFirst ':' full with
    | none => simp [splitCredentials, hsplit, h]
    | some ab => obtain ⟨a, b⟩ := ab; simp [splitCredentials, hsplit, h]
  · intro decode header hlen hdec h0
    rw [parseBasicString]
    simp only [if_neg hlen, hdec]
    exact hpanic h0

/-- C9 witness: the decoded credential "user" has no ":", the guard is
still true, and both the extraction tail and the full parser end in the
out-of-range access. -/
theorem c9_witness :
    0 < (splitN ':' 2 (str "user")).length ∧
    splitCredentials (str "user") = .panicked ∧
    parseBasicString (fun _ => .ok (str "user")) (str "Basic dXNlcg==") = .panicked :=
  ⟨(c9_guard_always_true (str "user")).1,
   (c9_guard_always_true (str "user")).2.1 (by decide),
   (c9_guard_always_true (str "user")).2.2.2 (fun _ => .ok (str "user"))
     (str "Basic dXNlcg==") (by decide) rfl (by decide)⟩

end Httputil
